import Mathlib

/- Verification development for the memory layer of the repository
   (src/memory.py, class MemoryManager).

   Modelling conventions:
   * Python floats are idealized: stored embedding vectors are rational vectors
     (every IEEE float is a rational), similarity scores are real numbers
     (the norm computation takes a square root).
   * Python dictionaries are association lists with Python assignment
     semantics: updating an existing key keeps its position, a new key is
     appended (updOrAppend below).
   * The external collaborators are modelled at their interface:
     - the sentence-transformer model is a function from text to an optional
       embedding (none models a raised EmbeddingError);
     - the Milvus backend calls are modelled by explicit per-call arguments:
       a Bool for whether the insert/flush (or delete) chain succeeds, and an
       optional hit list for a search call (none models a raised exception).
   * Raised exceptions inside add_to_memory / search_memory /
     clear_user_memories are caught by the source's except blocks; the model
     therefore returns the caught-branch value instead of propagating. -/

/-- Values stored in the result dictionaries built by search_memory: the
string fields and the floating-point similarity score (idealized as a real
number). -/
inductive Val where
  | str : String → Val
  | num : ℝ → Val

/-- Result dictionaries (and format_context inputs) are finite maps from
field-name strings to values, modelled as association lists in insertion
order. -/
abbrev Dict := List (String × Val)

/-- Field names of a dictionary, in insertion order. -/
def Dict.keys (d : Dict) : List String := d.map Prod.fst

/-- Python memory.get(key, "") as used by format_context; every value stored
under the prompt and reply keys in this program is a string. -/
def Dict.getStr (d : Dict) (k : String) : String :=
  match List.lookup k d with
  | some (Val.str s) => s
  | _ => ""

/-- Record stored in the fallback in-memory store
(src/memory.py lines 148-154). -/
structure MemRec where
  id : String
  prompt : String
  reply : String
  embedding : List ℚ
  combined_text : String
  deriving DecidableEq

/-- State of the MemoryManager. The embed field models the deterministic
sentence-transformer get_embedding (none = EmbeddingError); fallback_mode,
memory_store and search_cache are the mutable fields set in init
(src/memory.py lines 57-61). The Milvus collection itself is external state
and is modelled at the call sites. -/
structure MemoryManager where
  embed : String → Option (List ℚ)
  fallback_mode : Bool
  memory_store : List (String × List MemRec)
  search_cache : List ((String × String × Nat) × List Dict)

/-- Python dictionary assignment d[k] = v: replace in place if the key is
present, append otherwise. -/
def updOrAppend {κ ν : Type} [BEq κ] (l : List (κ × ν)) (k : κ) (v : ν) : List (κ × ν) :=
  match l with
  | [] => [(k, v)]
  | (k', v') :: rest => if k' == k then (k, v) :: rest else (k', v') :: updOrAppend rest k v

/-- Constructor (src/memory.py lines 38-87): fallback_mode starts False and is
set to True exactly when the Milvus connection/collection setup raises. -/
def MemoryManager.init (embed : String → Option (List ℚ)) (connectOk : Bool) : MemoryManager :=
  { embed := embed, fallback_mode := !connectOk, memory_store := [], search_cache := [] }

/-- Combined text f-string of add_to_memory (src/memory.py line 130). -/
def combined_text (prompt reply : String) : String :=
  "User: " ++ prompt ++ "\nAI: " ++ reply

/-- Dot product np.dot over equal-length vectors (src/memory.py line 338). -/
def dot_product (vec1 vec2 : List ℚ) : ℚ :=
  (List.zipWith (fun a b => a * b) vec1 vec2).sum

/-- Euclidean norm np.linalg.norm (src/memory.py lines 339-340), idealized
over the reals. -/
noncomputable def euclid_norm (vec : List ℚ) : ℝ :=
  Real.sqrt (((vec.map fun x => x * x).sum : ℚ) : ℝ)

/-- Cosine similarity (source method _cosine_similarity, src/memory.py lines
322-347): zero when either norm is zero, otherwise the dot product divided by
the product of the norms. -/
noncomputable def cosine_similarity (vec1 vec2 : List ℚ) : ℝ :=
  if euclid_norm vec1 = 0 ∨ euclid_norm vec2 = 0 then 0
  else ((dot_product vec1 vec2 : ℚ) : ℝ) / (euclid_norm vec1 * euclid_norm vec2)

/-- Comparator of the fallback ranking: Python list.sort with key x[1] and
reverse=True is the stable descending sort by score, i.e. mergeSort with this
comparator (an earlier element is kept before a later one exactly when its
score is greater than or equal). -/
noncomputable def desc_by_score (a b : MemRec × ℝ) : Bool :=
  decide (b.2 ≤ a.2)

/-- Result dictionary literal of search_memory (src/memory.py lines 244-249
and 283-288): keys in insertion order text, prompt, reply, distance. -/
def mkEntry (prompt reply : String) (distance : ℝ) : Dict :=
  [("text", Val.str ("User: " ++ prompt ++ "\nAI: " ++ reply)),
   ("prompt", Val.str prompt),
   ("reply", Val.str reply),
   ("distance", Val.num distance)]

/-- Operation add_to_memory (src/memory.py lines 115-194). backendOk models
whether the Milvus count-query/insert/flush chain succeeds (ignored in
fallback mode, whose branch cannot raise). The embedding is computed first
(line 133); the per-user search-cache invalidation (line 137) runs after it;
an exception anywhere is caught and turned into a False return. -/
def add_to_memory (m : MemoryManager) (user_id prompt reply : String) (backendOk : Bool) :
    Bool × MemoryManager :=
  match m.embed (combined_text prompt reply) with
  | none => (false, m)
  | some embedding =>
    let cache' := m.search_cache.filter fun kv => kv.1.1 != user_id
    if m.fallback_mode then
      let mems := (List.lookup user_id m.memory_store).getD []
      let record := MemRec.mk (user_id ++ "_" ++ toString (mems.length + 1))
        prompt reply embedding (combined_text prompt reply)
      (true, { m with search_cache := cache',
                      memory_store := updOrAppend m.memory_store user_id (mems ++ [record]) })
    else if backendOk then (true, { m with search_cache := cache' })
    else (false, { m with search_cache := cache' })

/-- Operation search_memory (src/memory.py lines 196-307). backendHits models
the Milvus search reply, flattened to (prompt, reply, distance) triples (none
models a raised exception). The cache-hit check (lines 209-212) precedes
everything; in fallback mode a user with no stored records returns early
(lines 224-226) without caching, otherwise candidates are scored, stably
sorted descending, truncated and formatted (lines 230-255). -/
noncomputable def search_memory (m : MemoryManager) (user_id query : String) (limit : Nat)
    (backendHits : Option (List (String × String × ℝ))) : List Dict × MemoryManager :=
  match List.lookup (user_id, query, limit) m.search_cache with
  | some cached => (cached, m)
  | none =>
    match m.embed query with
    | none => ([], m)
    | some query_embedding =>
      if m.fallback_mode then
        match List.lookup user_id m.memory_store with
        | none => ([], m)
        | some user_memories =>
          if user_memories.isEmpty then ([], m)
          else
            let similarities := user_memories.map fun mem =>
              (mem, cosine_similarity query_embedding mem.embedding)
            let top_memories := (similarities.mergeSort desc_by_score).take limit
            let memories := top_memories.map fun p => mkEntry p.1.prompt p.1.reply p.2
            (memories, { m with
              search_cache := updOrAppend m.search_cache (user_id, query, limit) memories })
      else
        match backendHits with
        | none => ([], m)
        | some hits =>
          let memories := hits.map fun h => mkEntry h.1 h.2.1 h.2.2
          (memories, { m with
            search_cache := updOrAppend m.search_cache (user_id, query, limit) memories })

/-- Operation clear_user_memories (src/memory.py lines 370-403). backendOk
models whether the Milvus delete/flush chain succeeds. The search cache is
not touched by this operation in the source. -/
def clear_user_memories (m : MemoryManager) (user_id : String) (backendOk : Bool) :
    Bool × MemoryManager :=
  if m.fallback_mode then
    match List.lookup user_id m.memory_store with
    | some _ => (true, { m with memory_store := updOrAppend m.memory_store user_id [] })
    | none => (true, m)
  else if backendOk then (true, m) else (false, m)

/-- Operation format_context (src/memory.py lines 349-368): empty input gives
the empty string, otherwise a header line followed by one numbered block per
entry, built left to right by the for loop over enumerate(memories). -/
def format_context (memories : List Dict) : String :=
  if memories.isEmpty then ""
  else memories.enum.foldl (fun context p =>
    context ++ ("Memory " ++ toString (p.1 + 1) ++ ":\n") ++
    ("User: " ++ Dict.getStr p.2 "prompt" ++ "\n") ++
    ("AI: " ++ Dict.getStr p.2 "reply" ++ "\n\n"))
    "Here are some relevant previous interactions:\n\n"

/- Helper lemmas about the association-list primitives. -/

theorem lookup_updOrAppend_self {κ ν : Type} [BEq κ] [LawfulBEq κ]
    (l : List (κ × ν)) (k : κ) (v : ν) :
    List.lookup k (updOrAppend l k v) = some v := by
  induction l with
  | nil => simp [updOrAppend, List.lookup]
  | cons p rest ih =>
    obtain ⟨k', v'⟩ := p
    by_cases h : k' = k
    · subst h
      simp [updOrAppend, List.lookup]
    · have hb : (k' == k) = false := beq_eq_false_iff_ne.mpr h
      have hb' : (k == k') = false := beq_eq_false_iff_ne.mpr (Ne.symm h)
      simp [updOrAppend, hb, List.lookup, hb', ih]

theorem lookup_filter_fst_ne {ν : Type} (cache : List ((String × String × Nat) × ν))
    (u q : String) (l : Nat) :
    List.lookup (u, q, l) (cache.filter fun kv => kv.1.1 != u) = none := by
  induction cache with
  | nil => simp
  | cons kv rest ih =>
    obtain ⟨⟨u', q', l'⟩, v⟩ := kv
    by_cases h : u' = u
    · subst h
      simp [List.filter_cons, ih]
    · have hk : ((u, q, l) == ((u', q', l') : String × String × Nat)) = false := by
        apply beq_eq_false_iff_ne.mpr
        intro hcontra
        exact h (congrArg (fun t => t.1) hcontra).symm
      simp [List.filter_cons, bne_iff_ne, h, List.lookup_cons, hk, ih]

theorem mem_filter_fst_ne {ν : Type} (cache : List ((String × String × Nat) × ν))
    (u : String) (kv : (String × String × Nat) × ν)
    (h : kv ∈ cache.filter fun kv => kv.1.1 != u) : kv.1.1 ≠ u := by
  have := (List.mem_filter.mp h).2
  simpa [bne_iff_ne] using this

/- Branch characterizations of the operations, used by several claims. -/

theorem add_to_memory_embed_fail (m : MemoryManager) (u p r : String) (ok : Bool)
    (he : m.embed (combined_text p r) = none) :
    add_to_memory m u p r ok = (false, m) := by
  simp [add_to_memory, he]

theorem add_to_memory_cache_of_embed_ok (m : MemoryManager) (u p r : String) (ok : Bool)
    (e : List ℚ) (he : m.embed (combined_text p r) = some e) :
    (add_to_memory m u p r ok).2.search_cache = m.search_cache.filter fun kv => kv.1.1 != u := by
  cases hfb : m.fallback_mode with
  | true => simp [add_to_memory, he, hfb]
  | false => cases ok <;> simp [add_to_memory, he, hfb]

theorem search_memory_hit (m : MemoryManager) (u q : String) (l : Nat)
    (bh : Option (List (String × String × ℝ))) (cached : List Dict)
    (hh : List.lookup (u, q, l) m.search_cache = some cached) :
    search_memory m u q l bh = (cached, m) := by
  simp [search_memory, hh]

theorem search_memory_embed_fail (m : MemoryManager) (u q : String) (l : Nat)
    (bh : Option (List (String × String × ℝ)))
    (hmiss : List.lookup (u, q, l) m.search_cache = none)
    (he : m.embed q = none) :
    search_memory m u q l bh = ([], m) := by
  simp [search_memory, hmiss, he]

theorem search_memory_fallback_no_user (m : MemoryManager) (u q : String) (l : Nat)
    (bh : Option (List (String × String × ℝ))) (e : List ℚ)
    (hmiss : List.lookup (u, q, l) m.search_cache = none)
    (he : m.embed q = some e) (hfb : m.fallback_mode = true)
    (hs : List.lookup u m.memory_store = none) :
    search_memory m u q l bh = ([], m) := by
  simp [search_memory, hmiss, he, hfb, hs]

theorem search_memory_fallback_empty_user (m : MemoryManager) (u q : String) (l : Nat)
    (bh : Option (List (String × String × ℝ))) (e : List ℚ)
    (hmiss : List.lookup (u, q, l) m.search_cache = none)
    (he : m.embed q = some e) (hfb : m.fallback_mode = true)
    (hs : List.lookup u m.memory_store = some []) :
    search_memory m u q l bh = ([], m) := by
  simp [search_memory, hmiss, he, hfb, hs]

/-- Candidate list of the fallback search path (src/memory.py lines 230-236):
each stored record of the user paired with its cosine similarity to the query
embedding, in insertion order. -/
noncomputable def scored_candidates (e : List ℚ) (mems : List MemRec) : List (MemRec × ℝ) :=
  mems.map fun mem => (mem, cosine_similarity e mem.embedding)

/-- Result list of the fallback search path on a cache miss for a user with
records (src/memory.py lines 238-249): stable descending sort by score,
truncation to the first limit entries, then formatting. -/
noncomputable def fallback_results (e : List ℚ) (mems : List MemRec) (l : Nat) : List Dict :=
  (((scored_candidates e mems).mergeSort desc_by_score).take l).map fun p =>
    mkEntry p.1.prompt p.1.reply p.2

/-- Result list of the Milvus search path (src/memory.py lines 278-288):
formatting of the backend hits in the order the backend returned them. -/
def milvus_results (hits : List (String × String × ℝ)) : List Dict :=
  hits.map fun h => mkEntry h.1 h.2.1 h.2.2

theorem search_memory_fallback_run (m : MemoryManager) (u q : String) (l : Nat)
    (bh : Option (List (String × String × ℝ))) (e : List ℚ) (mems : List MemRec)
    (hmiss : List.lookup (u, q, l) m.search_cache = none)
    (he : m.embed q = some e) (hfb : m.fallback_mode = true)
    (hs : List.lookup u m.memory_store = some mems) (hne : mems ≠ []) :
    search_memory m u q l bh =
      (fallback_results e mems l,
        { m with search_cache :=
            updOrAppend m.search_cache (u, q, l) (fallback_results e mems l) }) := by
  have hne' : mems.isEmpty = false := by
    cases mems with
    | nil => exact absurd rfl hne
    | cons a t => rfl
  simp [search_memory, hmiss, he, hfb, hs, hne', fallback_results, scored_candidates]

theorem search_memory_milvus_fail (m : MemoryManager) (u q : String) (l : Nat) (e : List ℚ)
    (hmiss : List.lookup (u, q, l) m.search_cache = none)
    (he : m.embed q = some e) (hfb : m.fallback_mode = false) :
    search_memory m u q l none = ([], m) := by
  simp [search_memory, hmiss, he, hfb]

theorem search_memory_milvus_run (m : MemoryManager) (u q : String) (l : Nat) (e : List ℚ)
    (hits : List (String × String × ℝ))
    (hmiss : List.lookup (u, q, l) m.search_cache = none)
    (he : m.embed q = some e) (hfb : m.fallback_mode = false) :
    search_memory m u q l (some hits) =
      (milvus_results hits,
        { m with search_cache :=
            updOrAppend m.search_cache (u, q, l) (milvus_results hits) }) := by
  simp [search_memory, hmiss, he, hfb, milvus_results]

/- Concrete states used by counterexamples and witnesses. -/

/-- Embedding model that succeeds on every text with the one-dimensional
vector [1]. -/
def exEmbed : String → Option (List ℚ) := fun _ => some [1]

/-- Embedding model that raises (EmbeddingError) on every text. -/
def exEmbedFail : String → Option (List ℚ) := fun _ => none

/-- One stored record for user u. -/
def exRec : MemRec := ⟨"u_1", "p", "r", [1], "User: p\nAI: r"⟩

/-- A search result list cached before the operations under scrutiny run. -/
def exOld : Dict := [("text", Val.str "old")]

/-- Fallback-mode manager with one record for user u and a populated search
cache for key (u, q, 2). -/
def mWithCache : MemoryManager := ⟨exEmbed, true, [("u", [exRec])], [(("u", "q", 2), [exOld])]⟩

/-- Fallback-mode manager whose embedding model always fails, with a populated
search cache for user u. -/
def mEmbedFail : MemoryManager := ⟨exEmbedFail, true, [], [(("u", "q", 2), [exOld])]⟩

/-- Fallback-mode manager with one record for user u and an empty search
cache. -/
def mFresh : MemoryManager := ⟨exEmbed, true, [("u", [exRec])], []⟩

/-- Milvus-mode manager with a populated search cache for user u. -/
def mMilvus : MemoryManager := ⟨exEmbed, false, [], [(("u", "q", 2), [exOld])]⟩

/-- Fallback-mode manager with no records and an empty search cache. -/
def mEmptyStore : MemoryManager := ⟨exEmbed, true, [], []⟩

/-- Claim C5 (confirmed): add_to_memory is a total function of its inputs (no
exception reaches the caller; the source's except block absorbs embedding and
backend failures into a False return), and it returns True exactly when the
embedding succeeds and the insert into the active backend succeeds — in
fallback mode the in-process insert cannot fail, in Milvus mode it succeeds
exactly when the backend call chain does. -/
theorem add_to_memory_total_return_value (m : MemoryManager) (u p r : String) (ok : Bool) :
    (add_to_memory m u p r ok).1 =
      ((m.embed (combined_text p r)).isSome && (m.fallback_mode || ok)) := by
  cases he : m.embed (combined_text p r) <;> cases hfb : m.fallback_mode <;> cases ok <;>
    simp [add_to_memory, he, hfb]

/-- Claim C8 (confirmed): fallback_mode is decided once at construction — it
is True exactly when the Milvus connection probe fails — and none of the
operations (add_to_memory, search_memory, clear_user_memories) ever changes
it, so the Manager never transitions back to the primary backend within a
process lifetime. (format_context reads and writes no manager state at all:
in this embedding it does not even take the state as an argument.) -/
theorem fallback_mode_constant :
    (∀ (f : String → Option (List ℚ)) (connectOk : Bool),
      (MemoryManager.init f connectOk).fallback_mode = !connectOk) ∧
    (∀ m u p r ok, (add_to_memory m u p r ok).2.fallback_mode = m.fallback_mode) ∧
    (∀ m u q l bh, (search_memory m u q l bh).2.fallback_mode = m.fallback_mode) ∧
    (∀ m u ok, (clear_user_memories m u ok).2.fallback_mode = m.fallback_mode) := by
  refine ⟨fun f connectOk => rfl, fun m u p r ok => ?_, fun m u q l bh => ?_, fun m u ok => ?_⟩
  · unfold add_to_memory
    repeat' split
    all_goals rfl
  · unfold search_memory
    repeat' split
    all_goals rfl
  · unfold clear_user_memories
    repeat' split
    all_goals rfl

/-- Claim C2 (corrected) counterexample: clear_user_memories does not evict
the user's search-cache entries. On a fallback manager with a cached search
result for user u, the clear succeeds, the stale cache entry survives, and a
subsequent search_memory for the previously cached key returns the result
cached before the clear. -/
theorem clear_user_memories_stale_cache_cx :
    (clear_user_memories mWithCache "u" true).1 = true ∧
    (clear_user_memories mWithCache "u" true).2.search_cache = [(("u", "q", 2), [exOld])] ∧
    (search_memory (clear_user_memories mWithCache "u" true).2 "u" "q" 2 none).1 = [exOld] := by
  refine ⟨rfl, rfl, rfl⟩

/-- Claim C2 (corrected, amended): clear_user_memories deletes all of the
user's records from the active backend (in fallback mode the user's record
list is empty afterwards; in Milvus mode the delete is issued to the backend)
and returns False exactly on a backend failure, but it does NOT remove the
user's search-cache entries: the search cache is left unchanged, so a
subsequent search_memory with a previously cached key is still served from
the cache. -/
theorem clear_user_memories_spec (m : MemoryManager) (u : String) (ok : Bool) :
    (clear_user_memories m u ok).2.search_cache = m.search_cache ∧
    (clear_user_memories m u ok).1 = (m.fallback_mode || ok) ∧
    (m.fallback_mode = true →
      (List.lookup u (clear_user_memories m u ok).2.memory_store).getD [] = []) := by
  cases hfb : m.fallback_mode with
  | false => cases ok <;> simp [clear_user_memories, hfb]
  | true =>
    cases hs : List.lookup u m.memory_store with
    | none => simp [clear_user_memories, hfb, hs]
    | some l => simp [clear_user_memories, hfb, hs, lookup_updOrAppend_self]

/-- Claim C2 witness: the amended clear_user_memories specification applied to
the concrete fallback manager mWithCache. -/
theorem clear_user_memories_spec_witness :
    (clear_user_memories mWithCache "u" true).2.search_cache = mWithCache.search_cache ∧
    (List.lookup "u" (clear_user_memories mWithCache "u" true).2.memory_store).getD [] = [] :=
  ⟨(clear_user_memories_spec mWithCache "u" true).1,
    (clear_user_memories_spec mWithCache "u" true).2.2 rfl⟩

/-- Claim C1 (corrected) counterexample: when the embedding computation for
the combined text raises, add_to_memory returns False before reaching the
cache-invalidation line (src/memory.py line 137 runs after line 133), so a
search-cache entry for the user populated before the add survives, and a
subsequent search_memory for the previously cached key returns the result
computed before the add instead of re-querying the backend. -/
theorem add_to_memory_embed_fail_stale_cache_cx :
    (add_to_memory mEmbedFail "u" "p" "r" true).1 = false ∧
    (add_to_memory mEmbedFail "u" "p" "r" true).2.search_cache = [(("u", "q", 2), [exOld])] ∧
    (search_memory (add_to_memory mEmbedFail "u" "p" "r" true).2 "u" "q" 2 none).1 = [exOld] :=
  ⟨rfl, rfl, rfl⟩

/-- Claim C1 (corrected, amended): provided the embedding computation for the
combined text succeeds (in particular whenever the add is not rejected by an
EmbeddingError — the insert itself may still fail), after add_to_memory(U, p,
r) returns no search-cache entry whose key's user_id equals U remains, and a
subsequent search_memory(U, q, limit) for any key (U, q, limit) misses the
cache and therefore re-queries the active backend. -/
theorem add_to_memory_invalidates_user_cache (m : MemoryManager) (u p r : String) (ok : Bool)
    (e : List ℚ) (he : m.embed (combined_text p r) = some e) :
    (∀ kv ∈ (add_to_memory m u p r ok).2.search_cache, kv.1.1 ≠ u) ∧
    (∀ q l, List.lookup (u, q, l) (add_to_memory m u p r ok).2.search_cache = none) := by
  rw [add_to_memory_cache_of_embed_ok m u p r ok e he]
  exact ⟨fun kv hkv => mem_filter_fst_ne _ _ _ hkv, fun q l => lookup_filter_fst_ne _ _ _ _⟩

/-- Claim C1 witness: the amended invalidation property applied to the
concrete fallback manager mWithCache, whose cache held an entry for user u
under key (u, q, 2) before the add. -/
theorem add_to_memory_invalidates_user_cache_witness :
    List.lookup ("u", "q", 2) (add_to_memory mWithCache "u" "p" "r" true).2.search_cache = none :=
  (add_to_memory_invalidates_user_cache mWithCache "u" "p" "r" true [1] rfl).2 "q" 2

/-- Claim C9 (confirmed): in Milvus mode, when the embedding computation
succeeds but the backend insert chain fails, add_to_memory returns False and
the per-user search-cache invalidation has nevertheless taken place (the
invalidation on src/memory.py line 137 precedes the insert on line 178 and is
not rolled back by the except block). -/
theorem add_to_memory_failed_insert_still_invalidates (m : MemoryManager) (u p r : String)
    (e : List ℚ) (he : m.embed (combined_text p r) = some e) (hfb : m.fallback_mode = false) :
    (add_to_memory m u p r false).1 = false ∧
    ∀ kv ∈ (add_to_memory m u p r false).2.search_cache, kv.1.1 ≠ u := by
  constructor
  · simp [add_to_memory, he, hfb]
  · rw [add_to_memory_cache_of_embed_ok m u p r false e he]
    exact fun kv hkv => mem_filter_fst_ne _ _ _ hkv

/-- Claim C9 witness: the failed-insert invalidation property applied to the
concrete Milvus-mode manager mMilvus, whose cache held an entry for user u. -/
theorem add_to_memory_failed_insert_still_invalidates_witness :
    (add_to_memory mMilvus "u" "p" "r" false).1 = false :=
  (add_to_memory_failed_insert_still_invalidates mMilvus "u" "p" "r" [1] rfl rfl).1

/-- Claim C10 (confirmed): in fallback mode, a cache-miss search for a user
with no stored records (absent key or empty record list) returns the empty
list and leaves the manager — in particular the search cache — unchanged: the
empty result is not inserted into the cache (the early return on
src/memory.py line 226 precedes the cache store on line 255), so a later
search for the same key re-scans the store. -/
theorem search_memory_fallback_empty_no_cache (m : MemoryManager) (u q : String) (l : Nat)
    (bh : Option (List (String × String × ℝ)))
    (hfb : m.fallback_mode = true)
    (hmiss : List.lookup (u, q, l) m.search_cache = none)
    (hs : List.lookup u m.memory_store = none ∨ List.lookup u m.memory_store = some []) :
    (search_memory m u q l bh).1 = [] ∧ (search_memory m u q l bh).2 = m ∧
    List.lookup (u, q, l) (search_memory m u q l bh).2.search_cache = none := by
  cases he : m.embed q with
  | none =>
    rw [search_memory_embed_fail m u q l bh hmiss he]
    exact ⟨rfl, rfl, hmiss⟩
  | some e =>
    cases hs with
    | inl h =>
      rw [search_memory_fallback_no_user m u q l bh e hmiss he hfb h]
      exact ⟨rfl, rfl, hmiss⟩
    | inr h =>
      rw [search_memory_fallback_empty_user m u q l bh e hmiss he hfb h]
      exact ⟨rfl, rfl, hmiss⟩

/-- Claim C10 witness: the empty-user no-caching property applied to the
concrete fallback manager mEmptyStore. -/
theorem search_memory_fallback_empty_no_cache_witness :
    (search_memory mEmptyStore "u" "q" 2 none).1 = [] ∧
    (search_memory mEmptyStore "u" "q" 2 none).2 = mEmptyStore :=
  ⟨(search_memory_fallback_empty_no_cache mEmptyStore "u" "q" 2 none rfl rfl (Or.inl rfl)).1,
    (search_memory_fallback_empty_no_cache mEmptyStore "u" "q" 2 none rfl rfl (Or.inl rfl)).2.1⟩

/-- Claim C3 (corrected) counterexample: on a concrete cache-miss fallback
search that succeeds, the returned element's field names are text, prompt,
reply and distance — there is no score field; the similarity score is stored
under the key distance (src/memory.py line 248). -/
theorem search_memory_distance_field_cx :
    ((search_memory mFresh "u" "q" 2 none).1.headD []).map Prod.fst =
      ["text", "prompt", "reply", "distance"] ∧
    "score" ∉ ((search_memory mFresh "u" "q" 2 none).1.headD []).map Prod.fst := by
  have hres : (search_memory mFresh "u" "q" 2 none).1 =
      [mkEntry "p" "r" (cosine_similarity [1] [1])] := by
    rw [search_memory_fallback_run mFresh "u" "q" 2 none [1] [exRec] rfl rfl rfl rfl
      (List.cons_ne_nil _ _)]
    simp [fallback_results, scored_candidates, exRec]
  have hkeys : ((search_memory mFresh "u" "q" 2 none).1.headD []).map Prod.fst =
      ["text", "prompt", "reply", "distance"] := by
    rw [hres]
    rfl
  refine ⟨hkeys, ?_⟩
  rw [hkeys]
  decide

/-- Claim C3 (corrected, amended): for every cache-miss call search_memory(U,
q, limit), each returned element is a mapping with exactly the fields text,
prompt, reply and distance (not score; the distance field holds the
similarity score), where text equals the concatenation of the literal
"User: ", the record's prompt, the literal newline plus "AI: " and the
record's reply, and whenever the computed list is non-empty it is stored in
the search cache under the key (U, q, limit). -/
theorem search_memory_miss_result_fields (m : MemoryManager) (u q : String) (l : Nat)
    (bh : Option (List (String × String × ℝ)))
    (hmiss : List.lookup (u, q, l) m.search_cache = none) :
    (∀ d ∈ (search_memory m u q l bh).1, ∃ p r sc, d = mkEntry p r sc ∧
      d.map Prod.fst = ["text", "prompt", "reply", "distance"] ∧
      List.lookup "text" d = some (Val.str ("User: " ++ p ++ "\nAI: " ++ r))) ∧
    ((search_memory m u q l bh).1 ≠ [] →
      List.lookup (u, q, l) (search_memory m u q l bh).2.search_cache =
        some (search_memory m u q l bh).1) := by
  cases he : m.embed q with
  | none =>
    rw [search_memory_embed_fail m u q l bh hmiss he]
    exact ⟨fun d hd => absurd hd (List.not_mem_nil d), fun hne => absurd rfl hne⟩
  | some e =>
    cases hfb : m.fallback_mode with
    | false =>
      cases bh with
      | none =>
        rw [search_memory_milvus_fail m u q l e hmiss he hfb]
        exact ⟨fun d hd => absurd hd (List.not_mem_nil d), fun hne => absurd rfl hne⟩
      | some hits =>
        rw [search_memory_milvus_run m u q l e hits hmiss he hfb]
        constructor
        · intro d hd
          obtain ⟨h, hmem, rfl⟩ := List.mem_map.mp hd
          exact ⟨h.1, h.2.1, h.2.2, rfl, rfl, rfl⟩
        · intro _
          exact lookup_updOrAppend_self m.search_cache (u, q, l) (milvus_results hits)
    | true =>
      cases hs : List.lookup u m.memory_store with
      | none =>
        rw [search_memory_fallback_no_user m u q l bh e hmiss he hfb hs]
        exact ⟨fun d hd => absurd hd (List.not_mem_nil d), fun hne => absurd rfl hne⟩
      | some mems =>
        by_cases hne : mems = []
        · subst hne
          rw [search_memory_fallback_empty_user m u q l bh e hmiss he hfb hs]
          exact ⟨fun d hd => absurd hd (List.not_mem_nil d), fun hne => absurd rfl hne⟩
        · rw [search_memory_fallback_run m u q l bh e mems hmiss he hfb hs hne]
          constructor
          · intro d hd
            obtain ⟨p, hmem, rfl⟩ := List.mem_map.mp hd
            exact ⟨p.1.prompt, p.1.reply, p.2, rfl, rfl, rfl⟩
          · intro _
            exact lookup_updOrAppend_self m.search_cache (u, q, l) (fallback_results e mems l)

/-- Claim C3 witness: the amended result-shape property applied to the
concrete fallback manager mFresh, whose search on a cache miss returns one
formatted element that is then cached under the key. -/
theorem search_memory_miss_result_fields_witness :
    List.lookup ("u", "q", 2) (search_memory mFresh "u" "q" 2 none).2.search_cache =
      some (search_memory mFresh "u" "q" 2 none).1 :=
  (search_memory_miss_result_fields mFresh "u" "q" 2 none rfl).2
    (by
      rw [search_memory_fallback_run mFresh "u" "q" 2 none [1] [exRec] rfl rfl rfl rfl
        (List.cons_ne_nil _ _)]
      simp [fallback_results, scored_candidates])

/-- Claim C6 (confirmed): for vectors of equal dimension, cosine_similarity
returns exactly 0 when either Euclidean norm is zero (the guard on
src/memory.py line 343), and otherwise returns the dot product divided by the
product of the norms, whose denominator is then provably nonzero — the
division is never evaluated with a zero denominator. -/
theorem cosine_similarity_zero_norm_guard (v w : List ℚ) (hdim : v.length = w.length) :
    (euclid_norm v = 0 ∨ euclid_norm w = 0 → cosine_similarity v w = 0) ∧
    (euclid_norm v ≠ 0 → euclid_norm w ≠ 0 →
      cosine_similarity v w = ((dot_product v w : ℚ) : ℝ) / (euclid_norm v * euclid_norm w) ∧
      euclid_norm v * euclid_norm w ≠ 0) := by
  constructor
  · intro h
    unfold cosine_similarity
    rw [if_pos h]
  · intro h1 h2
    have hor : ¬(euclid_norm v = 0 ∨ euclid_norm w = 0) := by
      intro hcontra
      cases hcontra with
      | inl h => exact h1 h
      | inr h => exact h2 h
    constructor
    · unfold cosine_similarity
      rw [if_neg hor]
    · exact mul_ne_zero h1 h2

/-- Claim C6 witness: the zero-norm guard applied to the concrete pair of the
zero vector and the unit vector of dimension one. -/
theorem cosine_similarity_zero_norm_guard_witness : cosine_similarity [0] [1] = 0 :=
  (cosine_similarity_zero_norm_guard [0] [1] rfl).1
    (Or.inl (by norm_num [euclid_norm]))

/-- Comparator facts for the fallback ranking: desc_by_score is transitive
and total, as required by the stable-sort lemmas. -/
theorem desc_by_score_trans (a b c : MemRec × ℝ)
    (hab : desc_by_score a b) (hbc : desc_by_score b c) : desc_by_score a c := by
  simp only [desc_by_score, decide_eq_true_eq] at *
  exact le_trans hbc hab

theorem desc_by_score_total (a b : MemRec × ℝ) : desc_by_score a b || desc_by_score b a := by
  simp only [desc_by_score, Bool.or_eq_true, decide_eq_true_eq]
  exact le_total b.2 a.2

/-- Claim C7 (confirmed): in fallback mode, on a cache miss for a user with
stored records, search_memory returns the user's scored candidates stably
sorted by cosine similarity in descending order and truncated to the first
limit entries: the sorted list is a permutation of the candidate list (built
in insertion order), its scores are pairwise descending, and any two
candidates with equal scores keep their insertion order (the earlier one
appears before the later one in the sorted list). -/
theorem search_memory_fallback_ranking (m : MemoryManager) (u q : String) (l : Nat)
    (bh : Option (List (String × String × ℝ))) (e : List ℚ) (mems : List MemRec)
    (hmiss : List.lookup (u, q, l) m.search_cache = none)
    (he : m.embed q = some e) (hfb : m.fallback_mode = true)
    (hs : List.lookup u m.memory_store = some mems) (hne : mems ≠ []) :
    (search_memory m u q l bh).1 =
      (((scored_candidates e mems).mergeSort desc_by_score).take l).map
        (fun p => mkEntry p.1.prompt p.1.reply p.2) ∧
    ((scored_candidates e mems).mergeSort desc_by_score).Perm (scored_candidates e mems) ∧
    ((scored_candidates e mems).mergeSort desc_by_score).Pairwise
      (fun a b => b.2 ≤ a.2) ∧
    (∀ (x y : MemRec × ℝ) (pre mid suf : List (MemRec × ℝ)),
      scored_candidates e mems = pre ++ x :: (mid ++ y :: suf) → x.2 = y.2 →
      [x, y].Sublist ((scored_candidates e mems).mergeSort desc_by_score)) := by
  refine ⟨?_, ?_, ?_, ?_⟩
  · rw [search_memory_fallback_run m u q l bh e mems hmiss he hfb hs hne]
    rfl
  · exact List.mergeSort_perm (scored_candidates e mems) desc_by_score
  · refine (List.sorted_mergeSort desc_by_score_trans desc_by_score_total
      (scored_candidates e mems)).imp ?_
    intro a b hab
    simpa only [desc_by_score, decide_eq_true_eq] using hab
  · intro x y pre mid suf hdecomp hxy
    apply List.pair_sublist_mergeSort desc_by_score_trans desc_by_score_total
    · simp only [desc_by_score, hxy, decide_eq_true_eq]
      exact le_refl y.2
    · rw [hdecomp]
      refine List.Sublist.trans ?_ (List.sublist_append_right pre _)
      exact List.Sublist.cons₂ x
        (List.Sublist.trans (List.Sublist.cons₂ y (List.nil_sublist _))
          (List.sublist_append_right mid _))

/-- Claim C7 witness: the ranking property applied to the concrete fallback
manager mFresh with one stored record for user u. -/
theorem search_memory_fallback_ranking_witness :
    (search_memory mFresh "u" "q" 2 none).1 =
      (((scored_candidates [1] [exRec]).mergeSort desc_by_score).take 2).map
        (fun p => mkEntry p.1.prompt p.1.reply p.2) :=
  (search_memory_fallback_ranking mFresh "u" "q" 2 none [1] [exRec] rfl rfl rfl rfl
    (List.cons_ne_nil _ _)).1

/-- Rendering of the blocks named by the specification, written from the
spec's words for comparison with format_context: one numbered block per
entry, the counter starting at the given index, in input order. -/
def specBlocks : Nat → List Dict → String
  | _, [] => ""
  | i, mem :: rest =>
    ("Memory " ++ toString i ++ ":\n") ++
    ("User: " ++ Dict.getStr mem "prompt" ++ "\n") ++
    ("AI: " ++ Dict.getStr mem "reply" ++ "\n\n") ++ specBlocks (i + 1) rest

theorem foldl_enumFrom_blocks (ms : List Dict) : ∀ (k : Nat) (acc : String),
    (ms.enumFrom k).foldl (fun context p =>
      context ++ ("Memory " ++ toString (p.1 + 1) ++ ":\n") ++
      ("User: " ++ Dict.getStr p.2 "prompt" ++ "\n") ++
      ("AI: " ++ Dict.getStr p.2 "reply" ++ "\n\n")) acc
    = acc ++ specBlocks (k + 1) ms := by
  induction ms with
  | nil =>
    intro k acc
    simp [specBlocks]
  | cons mem rest ih =>
    intro k acc
    rw [List.enumFrom_cons, List.foldl_cons, ih (k + 1)]
    simp only [specBlocks]
    simp [String.append_assoc]

/-- Claim C4 (corrected) counterexample: on a one-element input,
format_context does not return just the numbered block — it prepends the
header line built on src/memory.py line 362, which the claim omits. -/
theorem format_context_header_cx :
    format_context [[("prompt", Val.str "p"), ("reply", Val.str "r")]] ≠
      "Memory 1:\nUser: p\nAI: r\n\n" ∧
    format_context [[("prompt", Val.str "p"), ("reply", Val.str "r")]] =
      "Here are some relevant previous interactions:\n\nMemory 1:\nUser: p\nAI: r\n\n" := by
  constructor
  · decide
  · decide

/-- Claim C4 (corrected, amended): format_context is a pure function of its
input; the empty input yields the empty string, and every non-empty input
yields the header "Here are some relevant previous interactions:" followed by
a blank line and then exactly the concatenation, in input order and with no
reordering, of one block "Memory i:", "User: (prompt)", "AI: (reply)" plus a
blank line per entry, i counting from 1. -/
theorem format_context_spec :
    format_context [] = "" ∧
    ∀ ms : List Dict, ms ≠ [] →
      format_context ms =
        "Here are some relevant previous interactions:\n\n" ++ specBlocks 1 ms := by
  constructor
  · rfl
  · intro ms hne
    have hi : ms.isEmpty = false := by
      cases ms with
      | nil => exact absurd rfl hne
      | cons a t => rfl
    unfold format_context
    rw [hi]
    simp only [Bool.false_eq_true, if_false]
    exact foldl_enumFrom_blocks ms 0 _

/-- Claim C4 witness: the amended format_context specification applied to a
concrete one-element input. -/
theorem format_context_spec_witness :
    format_context [[("prompt", Val.str "p"), ("reply", Val.str "r")]] =
      "Here are some relevant previous interactions:\n\n" ++
        specBlocks 1 [[("prompt", Val.str "p"), ("reply", Val.str "r")]] :=
  format_context_spec.2 [[("prompt", Val.str "p"), ("reply", Val.str "r")]]
    (List.cons_ne_nil _ _)
